import Mathlib

/-!
# Order lookup click handler (`web/static/js/app.js`)

The repository is one browser script: a click handler that reads an order ID
from an input field, fetches `/order/<id>` and writes markup into the
`result` element.  This file embeds that handler as a function on an explicit
world state (the input field, the `result` element, the log of issued
requests) and proves the properties of the specification against it.

Modelling conventions.

* The page is assumed to contain the three elements the script looks up
  (`searchButton`, `orderIdInput`, `result`).
* The content of the output region is the string last assigned to
  `resultDiv.innerHTML`.
* The network is a function from the URL handed to `fetch` to the outcome of
  the call: the promise is rejected with an error, or fulfilled with a
  response whose `json()` promise is in turn rejected or fulfilled.
* A thrown value is an `Error` object (`name`, `message`), which is what
  `fetch`, `Response.json` and the language runtime throw.
* A number is an IEEE 754 binary64 value given by its fields, and
  `Number::toString` is computed exactly (the shortest decimal that rounds to
  the number).  Strings are sequences of Unicode scalar values.
* The markup definitions carry the texts of the source, which are Russian; the
  specification quotes them in English.
* The platform operations the handler relies on (`ToBoolean`, property read,
  `||`, `ToString` of a template literal, `JSON.stringify`) follow
  ECMAScript.  So does `JSON.parse`, from the syntax tree of the body on: it
  decides in which order an object enumerates the members of the body.
-/

namespace OrderLookup

/-! ## Numbers -/

/-- A Number value other than `NaN`, which parsing JSON never yields: a
finite IEEE 754 binary64 value by its sign, biased exponent and fraction
field, or an infinity (what a literal such as `1e999` denotes). -/
inductive JSNumber where
  | finite (sign : Bool) (exponent : Fin 2047) (fraction : Fin 4503599627370496)
  | infinity (sign : Bool)
deriving DecidableEq, Repr

/-- Whether the number is `+0` or `-0`. -/
def JSNumber.isZero : JSNumber → Bool
  | .finite _ exponent fraction => exponent.val = 0 && fraction.val = 0
  | .infinity _ => false

/-- Whether the number is finite. -/
def JSNumber.isFinite : JSNumber → Bool
  | .finite _ _ _ => true
  | .infinity _ => false

/-- The multiple of `10 ^ q` closest to the finite non-zero number with the
given fields, among those that round to it, if there is one.  The magnitude
is `m * 2 ^ e`, with `m` the significand and `e` the binary exponent; the reals
that round to it lie between the midpoints to its two neighbours, midpoints
included when `m` is even (ties go to the even significand); the lower
neighbour is half as far when the number is a power of two above the smallest
normal one.  All quantities are counted in units of `2 ^ (e - 2)` and brought
to a common denominator. -/
def gridCandidate (exponent : Fin 2047) (fraction : Fin 4503599627370496) (q : Int) :
    Option Nat :=
  let m := if exponent.val = 0 then fraction.val else 4503599627370496 + fraction.val
  let e : Int := (if exponent.val = 0 then -1074 else (exponent.val : Int) - 1075) - 2
  let centre := 4 * m
  let high := 4 * m + 2
  let low := if fraction.val = 0 ∧ 1 < exponent.val then 4 * m - 1 else 4 * m - 2
  let closed := m % 2 = 0
  let scale := (if 0 ≤ e then 2 ^ e.toNat else 1) * (if q < 0 then 10 ^ (-q).toNat else 1)
  let step := (if 0 ≤ q then 10 ^ q.toNat else 1) * (if e < 0 then 2 ^ (-e).toNat else 1)
  let tmin := if closed then (low * scale + step - 1) / step else low * scale / step + 1
  let tmax := if closed then high * scale / step else (high * scale - 1) / step
  if tmin ≤ tmax then
    let below := max (centre * scale / step) tmin
    let above := min (centre * scale / step + 1) tmax
    some (if centre * scale - below * step ≤ above * step - centre * scale then below
      else above)
  else none

/-- A power of ten above every real that rounds to the finite number with the
given biased exponent: those reals are below `2 ^ b`, where `b` is the binary
exponent plus 53, and `2 ^ b` is below the power of ten with as many zeros as
it has digits (for negative `b`, above the reciprocal of the largest power of
ten not exceeding `2 ^ (-b)`). -/
def decimalBound (exponent : Fin 2047) : Int :=
  let b : Int := (if exponent.val = 0 then -1074 else (exponent.val : Int) - 1075) + 53
  if 0 ≤ b then ((Nat.toDigits 10 (2 ^ b.toNat)).length : Int)
  else 1 - ((Nat.toDigits 10 (2 ^ (-b).toNat)).length : Int)

/-- The integers `s` and `q` of the shortest decimal `s * 10 ^ q` that rounds
to the number: the search goes down from the grid of `10 ^ q` to finer grids
and stops at the first that has a multiple rounding to the number. -/
def shortestDecimal (exponent : Fin 2047) (fraction : Fin 4503599627370496) :
    Nat → Int → Nat × Int
  | 0, q => (0, q)
  | fuel + 1, q =>
    match gridCandidate exponent fraction q with
    | some s => (s, q)
    | none => shortestDecimal exponent fraction fuel (q - 1)

/-- A run of `n` digits zero. -/
def zeros (n : Nat) : List Char :=
  List.replicate n (Char.ofNat 48)

/-- Steps 6 to 12 of `Number::toString` for radix 10: the decimal with digits
`s` (there are `k` of them) and value `s * 10 ^ (n - k)`, in positional notation
when `-6 < n ≤ 21` and in exponent notation otherwise. -/
def formatDecimal (s : Nat) (n : Int) : String :=
  let digits := Nat.toDigits 10 s
  let k : Int := digits.length
  if k ≤ n ∧ n ≤ 21 then String.mk (digits ++ zeros (n - k).toNat)
  else if 0 < n ∧ n ≤ 21 then
    String.mk (digits.take n.toNat ++ [Char.ofNat 46] ++ digits.drop n.toNat)
  else if -6 < n ∧ n ≤ 0 then
    String.mk ([Char.ofNat 48, Char.ofNat 46] ++ zeros (-n).toNat ++ digits)
  else
    let exponentSign := if n < 0 then "-" else "+"
    let e := (n - 1).natAbs
    if k = 1 then String.mk digits ++ "e" ++ exponentSign ++ String.mk (Nat.toDigits 10 e)
    else
      String.mk (digits.take 1 ++ [Char.ofNat 46] ++ digits.drop 1) ++ "e" ++ exponentSign
        ++ String.mk (Nat.toDigits 10 e)

/-- `Number::toString` for radix 10.  A double has at most 16 digits before
its last binary digit and a shortest decimal of at most 17 digits, so the
search from `decimalBound` down ends within the fuel. -/
def numberToString : JSNumber → String
  | .infinity sign => if sign then "-Infinity" else "Infinity"
  | .finite sign exponent fraction =>
    if exponent.val = 0 ∧ fraction.val = 0 then "0"
    else
      let (s, q) := shortestDecimal exponent fraction 64 (decimalBound exponent)
      (if sign then "-" else "") ++ formatDecimal s ((Nat.toDigits 10 s).length + q)

/-! ## JavaScript values -/

/-- A value as produced by `JSON.parse`.  The properties of an object are
listed in the order in which the object enumerates its own keys. -/
inductive JSValue where
  | null
  | bool (b : Bool)
  | number (x : JSNumber)
  | string (s : String)
  | array (elements : List JSValue)
  | object (properties : List (String × JSValue))

/-- A thrown `Error` object. -/
structure JSError where
  name : String
  message : String
deriving DecidableEq, Repr

/-- The `TypeError` of reading a property of `null` (the wording is the
engine's; V8's is used). -/
def nullPropertyError (key : String) : JSError :=
  ⟨"TypeError", "Cannot read properties of null (reading \x27" ++ key ++ "\x27)"⟩

/-- The `TypeError` of `OrdinaryToPrimitive` when neither `toString` nor
`valueOf` yields a primitive (V8's wording). -/
def toPrimitiveError : JSError :=
  ⟨"TypeError", "Cannot convert object to primitive value"⟩

/-- `ToBoolean`: `null`, `false`, `0` and `""` are falsy, everything else
(every array and object included) is truthy. -/
def toBoolean : JSValue → Bool
  | .null => false
  | .bool b => b
  | .number x => !x.isZero
  | .string s => s != ""
  | .array _ => true
  | .object _ => true

/-- The expression `data.message`.  Reading a property of `null` throws; an
object yields its own property of that name (`none` is `undefined`); a
boolean, number, string or array has no property `message`, own or inherited.
-/
def getMessage : JSValue → Except JSError (Option JSValue)
  | .null => .error (nullPropertyError "message")
  | .object properties => .ok (properties.lookup "message")
  | _ => .ok none

/-- The expression `a || b` where `a` may be `undefined` (`none`). -/
def logicalOr (a : Option JSValue) (b : JSValue) : JSValue :=
  match a with
  | some v => if toBoolean v then v else b
  | none => b

/-- Whether an object has an own property of the given name. -/
def hasOwnProperty (key : String) (properties : List (String × JSValue)) : Bool :=
  (properties.lookup key).isSome

/-- Whether a value is `null`. -/
def JSValue.isNull : JSValue → Bool
  | .null => true
  | _ => false

mutual
/-- `ToString`, as applied to a substitution of a template literal.  An array
goes through `Array.prototype.join`; a plain object gives `[object Object]`
unless an own `toString` property (never callable in parsed JSON) shadows
`Object.prototype.toString`, in which case `OrdinaryToPrimitive` throws. -/
def toStringJS : JSValue → Except JSError String
  | .null => .ok "null"
  | .bool b => .ok (if b then "true" else "false")
  | .number x => .ok (numberToString x)
  | .string s => .ok s
  | .array elements => joinElements elements
  | .object properties =>
    if hasOwnProperty "toString" properties then .error toPrimitiveError
    else .ok "[object Object]"
/-- `Array.prototype.join` with the default separator, from the first
element on; a `null` element contributes the empty string. -/
def joinElements : List JSValue → Except JSError String
  | [] => .ok ""
  | e :: rest =>
    match (if e.isNull then .ok "" else toStringJS e) with
    | .error err => .error err
    | .ok s =>
      match joinRest rest with
      | .error err => .error err
      | .ok r => .ok (s ++ r)
/-- `Array.prototype.join`, from a later element on: the separator comes
first. -/
def joinRest : List JSValue → Except JSError String
  | [] => .ok ""
  | e :: rest =>
    match (if e.isNull then .ok "" else toStringJS e) with
    | .error err => .error err
    | .ok s =>
      match joinRest rest with
      | .error err => .error err
      | .ok r => .ok ("," ++ s ++ r)
end

/-! ## `JSON.stringify(data, null, 2)` -/

/-- The gap of `JSON.stringify(_, null, 2)`: two spaces. -/
def gap : String := "  "

/-- A lowercase hexadecimal digit. -/
def hexDigit (n : Nat) : Char :=
  if n < 10 then Char.ofNat (48 + n) else Char.ofNat (87 + n)

/-- `UnicodeEscape`: backslash, `u` and four hexadecimal digits. -/
def unicodeEscape (c : Char) : String :=
  "\\u" ++ String.mk [hexDigit (c.toNat / 4096 % 16), hexDigit (c.toNat / 256 % 16),
    hexDigit (c.toNat / 16 % 16), hexDigit (c.toNat % 16)]

/-- The escape of one code point in `QuoteJSONString`. -/
def quoteChar (c : Char) : String :=
  if c.toNat = 8 then "\\b"
  else if c.toNat = 9 then "\\t"
  else if c.toNat = 10 then "\\n"
  else if c.toNat = 12 then "\\f"
  else if c.toNat = 13 then "\\r"
  else if c.toNat = 34 then "\\\""
  else if c.toNat = 92 then "\\\\"
  else if c.toNat < 32 then unicodeEscape c
  else String.mk [c]

/-- `QuoteJSONString`. -/
def quoteJSONString (s : String) : String :=
  "\"" ++ String.join (s.data.map quoteChar) ++ "\""

mutual
/-- `SerializeJSONProperty` for a parsed JSON value (no `toJSON` method, no
replacer), with `SerializeJSONArray` and `SerializeJSONObject` inlined;
`indent` is the current indentation of the serialization state.  A number
that is not finite is written `null`. -/
def serializeJSONProperty (indent : String) : JSValue → String
  | .null => "null"
  | .bool b => if b then "true" else "false"
  | .number x => if x.isFinite then numberToString x else "null"
  | .string s => quoteJSONString s
  | .array elements =>
    match serializeElements (indent ++ gap) elements with
    | [] => "[]"
    | p :: ps =>
      "[" ++ "\n" ++ (indent ++ gap) ++ String.intercalate (",\n" ++ (indent ++ gap)) (p :: ps)
        ++ "\n" ++ indent ++ "]"
  | .object properties =>
    match serializeMembers (indent ++ gap) properties with
    | [] => "\x7b\x7d"
    | p :: ps =>
      "\x7b" ++ "\n" ++ (indent ++ gap) ++ String.intercalate (",\n" ++ (indent ++ gap)) (p :: ps)
        ++ "\n" ++ indent ++ "\x7d"
/-- The list of serialized elements that `SerializeJSONArray` collects. -/
def serializeElements (indent : String) : List JSValue → List String
  | [] => []
  | e :: rest => serializeJSONProperty indent e :: serializeElements indent rest
/-- The list of members that `SerializeJSONObject` collects: one per own key,
in key order. -/
def serializeMembers (indent : String) : List (String × JSValue) → List String
  | [] => []
  | (k, v) :: rest =>
    (quoteJSONString k ++ ":" ++ " " ++ serializeJSONProperty indent v)
      :: serializeMembers indent rest
end

/-- `JSON.stringify(data, null, 2)`. -/
def jsonStringify (data : JSValue) : String :=
  serializeJSONProperty "" data

/-! ## The JSON text of a body and `JSON.parse` -/

/-- The JSON text of a response body as a syntax tree: the members of an
object stand in the order they are written, repeated keys included; a number
literal stands as the number it denotes and a string literal as the string it
denotes. -/
inductive JSONText where
  | null
  | bool (b : Bool)
  | number (x : JSNumber)
  | string (s : String)
  | array (elements : List JSONText)
  | object (members : List (String × JSONText))

/-- The value of a run of decimal digits, read from the left onto the value
so far; `none` when a character is no digit. -/
def decimalValue? : List Char → Nat → Option Nat
  | [], value => some value
  | c :: rest, value =>
    if 48 ≤ c.toNat ∧ c.toNat ≤ 57 then decimalValue? rest (10 * value + (c.toNat - 48))
    else none

/-- The array index a property key stands for, if it is one: the key is the
canonical decimal numeral (no leading zero) of an integer below `2 ^ 32 - 1`.
-/
def arrayIndex? (key : String) : Option Nat :=
  match key.data with
  | [] => none
  | c :: rest =>
    if c.toNat = 48 ∧ !rest.isEmpty then none
    else
      match decimalValue? (c :: rest) 0 with
      | some n => if n < 4294967295 then some n else none
      | none => none

/-- `CreateDataProperty` on the properties of an object in the order of their
creation: an existing key takes the new value and keeps its place, a new key
is added at the end. -/
def createDataProperty (key : String) (value : JSValue) :
    List (String × JSValue) → List (String × JSValue)
  | [] => [(key, value)]
  | (k, v) :: rest =>
    if k = key then (key, value) :: rest else (k, v) :: createDataProperty key value rest

/-- The properties of an object literal after its members are defined one by
one, in the order of their creation. -/
def createProperties (members : List (String × JSValue)) : List (String × JSValue) :=
  members.foldl (fun properties member => createDataProperty member.1 member.2 properties) []

/-- Insertion of a property with array index `i` into properties sorted by
ascending index. -/
def insertByIndex (i : Nat) (property : String × JSValue) :
    List (Nat × (String × JSValue)) → List (Nat × (String × JSValue))
  | [] => [(i, property)]
  | (j, p) :: rest =>
    if i < j then (i, property) :: (j, p) :: rest
    else (j, p) :: insertByIndex i property rest

/-- The properties whose key is an array index, sorted by ascending index. -/
def indexedProperties : List (String × JSValue) → List (Nat × (String × JSValue))
  | [] => []
  | property :: rest =>
    match arrayIndex? property.1 with
    | some i => insertByIndex i property (indexedProperties rest)
    | none => indexedProperties rest

/-- `OrdinaryOwnPropertyKeys`: the properties whose key is an array index come
first, by ascending index, then the others in the order of their creation. -/
def ownPropertyOrder (properties : List (String × JSValue)) : List (String × JSValue) :=
  (indexedProperties properties).map Prod.snd
    ++ properties.filter (fun property => (arrayIndex? property.1).isNone)

mutual
/-- `JSON.parse` without reviver, from the syntax tree on: an object is built
by defining its members in order and enumerates its keys in own-property
order. -/
def parseJSON : JSONText → JSValue
  | .null => .null
  | .bool b => .bool b
  | .number x => .number x
  | .string s => .string s
  | .array elements => .array (parseElements elements)
  | .object members => .object (ownPropertyOrder (createProperties (parseMembers members)))
/-- The parsed elements of an array. -/
def parseElements : List JSONText → List JSValue
  | [] => []
  | e :: rest => parseJSON e :: parseElements rest
/-- The members of an object with their values parsed, as written. -/
def parseMembers : List (String × JSONText) → List (String × JSValue)
  | [] => []
  | (k, v) :: rest => (k, parseJSON v) :: parseMembers rest
end

mutual
/-- The body read naively: the value that has every member of every object,
in the order written. -/
def JSONText.asWritten : JSONText → JSValue
  | .null => .null
  | .bool b => .bool b
  | .number x => .number x
  | .string s => .string s
  | .array elements => .array (JSONText.elementsAsWritten elements)
  | .object members => .object (JSONText.membersAsWritten members)
/-- The elements of an array as written. -/
def JSONText.elementsAsWritten : List JSONText → List JSValue
  | [] => []
  | e :: rest => JSONText.asWritten e :: JSONText.elementsAsWritten rest
/-- The members of an object as written. -/
def JSONText.membersAsWritten : List (String × JSONText) → List (String × JSValue)
  | [] => []
  | (k, v) :: rest => (k, JSONText.asWritten v) :: JSONText.membersAsWritten rest
end

/-- Whether the keys are pairwise distinct. -/
def distinctKeys : List String → Bool
  | [] => true
  | k :: rest => !rest.contains k && distinctKeys rest

mutual
/-- Whether, in every object of the body, no key is repeated and no key is an
array index. -/
def JSONText.hasPlainKeys : JSONText → Bool
  | .null => true
  | .bool _ => true
  | .number _ => true
  | .string _ => true
  | .array elements => JSONText.elementsHavePlainKeys elements
  | .object members =>
    distinctKeys (members.map Prod.fst)
      && (members.map Prod.fst).all (fun k => (arrayIndex? k).isNone)
      && JSONText.membersHavePlainKeys members
/-- The same for the elements of an array. -/
def JSONText.elementsHavePlainKeys : List JSONText → Bool
  | [] => true
  | e :: rest => JSONText.hasPlainKeys e && JSONText.elementsHavePlainKeys rest
/-- The same for the values of the members of an object. -/
def JSONText.membersHavePlainKeys : List (String × JSONText) → Bool
  | [] => true
  | (_, v) :: rest => JSONText.hasPlainKeys v && JSONText.membersHavePlainKeys rest
end

/-! ## The pretty-printed form of the specification -/

/-- A run of `n` spaces. -/
def spaces (n : Nat) : String :=
  String.mk (List.replicate n (Char.ofNat 32))

/-- The escape of one character in a JSON string literal, by the JSON
grammar: the quotation mark and the backslash are preceded by a backslash, a
control character is written by its short escape if it has one and by
`\u00` and its two hexadecimal digits otherwise, any other character stands
for itself. -/
def specEscape (c : Char) : List Char :=
  if c = Char.ofNat 34 ∨ c = Char.ofNat 92 then [Char.ofNat 92, c]
  else if 32 ≤ c.toNat then [c]
  else
    match [(8, "\\b"), (9, "\\t"), (10, "\\n"), (12, "\\f"), (13, "\\r")].lookup c.toNat with
    | some short => short.data
    | none =>
      "\\u00".data ++ (if c.toNat < 16 then [Char.ofNat 48] else []) ++ Nat.toDigits 16 c.toNat

/-- The characters of a JSON string literal after the opening quotation
mark. -/
def specQuoted : List Char → List Char
  | [] => [Char.ofNat 34]
  | c :: rest => specEscape c ++ specQuoted rest

/-- The JSON string literal of a string. -/
def specStringLiteral (s : String) : String :=
  String.mk (Char.ofNat 34 :: specQuoted s.data)

mutual
/-- The pretty-printed form the specification describes, written by nesting
depth rather than by the serialization state: a string is its JSON string
literal, a finite number its shortest decimal numeral and any other number
`null`; an empty array or object is written closed; otherwise every element
or member stands on a line of its own, indented by two spaces per nesting
level, members as `"key": value` in the order of the keys, lines separated by
a comma, and the closing bracket stands on its own line at the depth of the
opening one. -/
def specPrettyPrint (depth : Nat) : JSValue → String
  | .null => "null"
  | .bool b => if b then "true" else "false"
  | .number x => if x.isFinite then numberToString x else "null"
  | .string s => specStringLiteral s
  | .array elements =>
    if elements.isEmpty then "[]"
    else "[\n" ++ specElementLines (depth + 1) elements ++ "\n" ++ spaces (2 * depth) ++ "]"
  | .object properties =>
    if properties.isEmpty then "\x7b\x7d"
    else "\x7b\n" ++ specMemberLines (depth + 1) properties ++ "\n" ++ spaces (2 * depth)
      ++ "\x7d"
/-- The lines of the elements of an array at the given depth. -/
def specElementLines (depth : Nat) : List JSValue → String
  | [] => ""
  | e :: rest =>
    spaces (2 * depth) ++ specPrettyPrint depth e
      ++ (if rest.isEmpty then "" else ",\n" ++ specElementLines depth rest)
/-- The lines of the members of an object at the given depth. -/
def specMemberLines (depth : Nat) : List (String × JSValue) → String
  | [] => ""
  | (k, v) :: rest =>
    spaces (2 * depth) ++ specStringLiteral k ++ ": " ++ specPrettyPrint depth v
      ++ (if rest.isEmpty then "" else ",\n" ++ specMemberLines depth rest)
end

/-! ## The network and the page -/

/-- A `Response` as the handler observes it: `status`, `statusText`, and the
outcome of `response.json()`. -/
structure Response where
  status : Nat
  statusText : String
  json : Except JSError JSValue

/-- `response.ok`: the status is in the range 200 to 299. -/
def Response.ok (r : Response) : Bool :=
  decide (200 ≤ r.status) && decide (r.status ≤ 299)

/-- The outcome of awaiting `fetch(url)`. -/
inductive FetchOutcome where
  | rejected (error : JSError)
  | fulfilled (response : Response)

/-- The server and transport: what `fetch` yields for each URL. -/
abbrev Network := String → FetchOutcome

/-- An outbound request. -/
structure Request where
  method : String
  url : String
deriving DecidableEq, Repr

/-- The world one activation runs in: the value of the `orderIdInput` field,
the markup of the `result` element, and the requests issued so far. -/
structure World where
  orderIdInput : String
  result : String
  requests : List Request
deriving DecidableEq, Repr

/-- The call `fetch(url)` without options: a `GET` request is recorded. -/
def recordFetch (url : String) (w : World) : World :=
  { w with requests := w.requests ++ [⟨"GET", url⟩] }

/-- The assignment `resultDiv.innerHTML = markup`. -/
def setResult (markup : String) (w : World) : World :=
  { w with result := markup }

/-! ## The markup the handler writes -/

/-- Markup of line 7, the validation error. -/
def validationMarkup : String :=
  "<p class=\"result-error\">Введите ID заказа.</p>"

/-- Markup of line 16, the not-found message. -/
def notFoundMarkup (orderId : String) : String :=
  "<p class=\"result-error\">Заказ с ID \"" ++ orderId ++ "\" не найден.</p>"

/-- Markup of line 18, the server-error message. -/
def serverErrorMarkup (message : String) : String :=
  "<p class=\"result-error\">Ошибка сервера: " ++ message ++ "</p>"

/-- Markup of line 20, the preformatted result. -/
def resultMarkup (text : String) : String :=
  "<pre>" ++ text ++ "</pre>"

/-- Markup of line 23, the request-error message. -/
def requestErrorMarkup (message : String) : String :=
  "<p class=\"result-error\">Произошла ошибка при запросе: " ++ message ++ "</p>"

/-! ## The handler -/

/-- The URL of line 12. -/
def orderUrl (orderId : String) : String :=
  "/order/" ++ orderId

/-- The body of the `try` block (lines 12 to 21): the completion (normal, or
a thrown error) together with the world at that point. -/
def tryBlock (net : Network) (orderId : String) (w : World) : Except JSError Unit × World :=
  let w1 := recordFetch (orderUrl orderId) w
  match net (orderUrl orderId) with
  | .rejected error => (.error error, w1)
  | .fulfilled response =>
    match response.json with
    | .error error => (.error error, w1)
    | .ok data =>
      if response.status = 404 then
        (.ok (), setResult (notFoundMarkup orderId) w1)
      else if !response.ok then
        match getMessage data with
        | .error error => (.error error, w1)
        | .ok message =>
          match toStringJS (logicalOr message (.string response.statusText)) with
          | .error error => (.error error, w1)
          | .ok text => (.ok (), setResult (serverErrorMarkup text) w1)
      else
        (.ok (), setResult (resultMarkup (jsonStringify data)) w1)

/-- The click handler (lines 1 to 24): the completion of the asynchronous
function (an error is a rejected promise, an exception leaving the handler)
together with the final world. -/
def clickHandler (net : Network) (w : World) : Except JSError Unit × World :=
  let orderId := w.orderIdInput
  let w0 := setResult "" w
  if !toBoolean (.string orderId) then
    (.ok (), setResult validationMarkup w0)
  else
    match tryBlock net orderId w0 with
    | (.ok (), w1) => (.ok (), w1)
    | (.error error, w1) => (.ok (), setResult (requestErrorMarkup error.message) w1)

/-! ## Concrete scenarios -/

/-- A server answering every request with the given status line and `json()`
outcome. -/
def serverAnswering (status : Nat) (statusText : String) (json : Except JSError JSValue) :
    Network :=
  fun _ => .fulfilled ⟨status, statusText, json⟩

/-- A transport on which every request fails. -/
def offline : Network :=
  fun _ => .rejected ⟨"TypeError", "Failed to fetch"⟩

/-- The `SyntaxError` of `response.json()` on an HTML body. -/
def htmlBodyError : JSError :=
  ⟨"SyntaxError", "Unexpected token < in JSON at position 0"⟩

/-- A page whose input field holds `orderId` and whose output region holds
`previous`. -/
def pageWith (orderId previous : String) : World :=
  ⟨orderId, previous, []⟩

/-- A server answering every request with status 500 and a JSON object whose
`message` field holds the given value. -/
def serverWithMessage (message : JSValue) : Network :=
  serverAnswering 500 "Internal Server Error" (.ok (.object [("message", message)]))

/-- A server answering every request with status 200 and the given body. -/
def serverWithBody (body : JSONText) : Network :=
  serverAnswering 200 "OK" (.ok (parseJSON body))

/-- The number 1. -/
def one : JSNumber :=
  .finite false 1023 0

/-- The number 2. -/
def two : JSNumber :=
  .finite false 1024 0

/-- The number 7. -/
def seven : JSNumber :=
  .finite false 1025 3377699720527872

/-- The number 1.5. -/
def oneAndHalf : JSNumber :=
  .finite false 1023 2251799813685248

/-- The number `1e21`. -/
def sextillion : JSNumber :=
  .finite false 1092 3125794903879504

/-- The number `1e20`, the largest power of ten written without exponent. -/
def hundredQuintillion : JSNumber :=
  .finite false 1089 1599915997629504

/-- The number `1e-7`. -/
def tenMillionth : JSNumber :=
  .finite false 999 3052186745220936

/-- The number `0.000001`. -/
def millionth : JSNumber :=
  .finite false 1003 218766855499149

/-- The number `12345678901234567000`, the double nearest to
`12345678901234567890`. -/
def largeInteger : JSNumber :=
  .finite false 1086 1524563898622945

/-- The number `1e23`, which lies halfway between two doubles and denotes the
lower one, whose significand is even. -/
def hundredSextillion : JSNumber :=
  .finite false 1099 1456864850168566

/-- The number `1.2e-7`. -/
def smallFraction : JSNumber :=
  .finite false 1000 29872196184363

/-- The number `0.30000000000000004`, the sum of the doubles `0.1` and `0.2`. -/
def threeTenthsSum : JSNumber :=
  .finite false 1021 900719925474100

/-- The power of two `2 ^ (-98)`, which is `3.1554436208840472e-30`; its lower
neighbour is half as far as its upper one. -/
def smallPowerOfTwo : JSNumber :=
  .finite false 925 0

/-- The number `-0.1`. -/
def minusTenth : JSNumber :=
  .finite true 1019 2702159776422298

/-- The body of the specification's example. -/
def shippedBody : JSONText :=
  .object [("id", .string "42"), ("status", .string "shipped")]

/-- The body `{"b":1,"1":2}`, whose second key is an array index. -/
def indexKeyBody : JSONText :=
  .object [("b", .number one), ("1", .number two)]

/-- The body `{"a":1,"a":2}`, which repeats a key. -/
def repeatedKeyBody : JSONText :=
  .object [("a", .number one), ("a", .number two)]

/-- A body with every kind of value: a string with characters that need
escaping, numbers of every notation, a literal that overflows, nested and
empty containers, array-index keys, a key just above the array indices, and
repeated keys. -/
def mixedBody : JSONText :=
  .object [
    ("text", .string "q\"b\\s\n\t\r\x08\x0c\x01\x1f Я<"),
    ("10", .bool false),
    ("tag", .string "first"),
    ("numbers", .array [.number oneAndHalf, .number sextillion, .number tenMillionth,
      .number millionth, .number largeInteger, .number minusTenth, .number (.finite true 0 0),
      .number (.infinity false), .number hundredSextillion, .number smallFraction,
      .number threeTenthsSum, .number smallPowerOfTwo, .number hundredQuintillion]),
    ("4294967295", .null),
    ("4294967294", .null),
    ("9", .null),
    ("tag", .string "last"),
    ("10", .bool true),
    ("empty", .array [.array [], .object []]),
    ("nested", .object [("k", .array [.object [("01", .bool true)]])])]

/-- The text displayed for `mixedBody`. -/
def mixedBodyDisplayed : String :=
  "\x7b\n" ++
  "  \"9\": null,\n" ++
  "  \"10\": true,\n" ++
  "  \"4294967294\": null,\n" ++
  "  \"text\": \"q\\\"b\\\\s\\n\\t\\r\\b\\f\\u0001\\u001f Я<\",\n" ++
  "  \"tag\": \"last\",\n" ++
  "  \"numbers\": [\n" ++
  "    1.5,\n" ++
  "    1e+21,\n" ++
  "    1e-7,\n" ++
  "    0.000001,\n" ++
  "    12345678901234567000,\n" ++
  "    -0.1,\n" ++
  "    0,\n" ++
  "    null,\n" ++
  "    1e+23,\n" ++
  "    1.2e-7,\n" ++
  "    0.30000000000000004,\n" ++
  "    3.1554436208840472e-30,\n" ++
  "    100000000000000000000\n" ++
  "  ],\n" ++
  "  \"4294967295\": null,\n" ++
  "  \"empty\": [\n" ++
  "    [],\n" ++
  "    \x7b\x7d\n" ++
  "  ],\n" ++
  "  \"nested\": \x7b\n" ++
  "    \"k\": [\n" ++
  "      \x7b\n" ++
  "        \"01\": true\n" ++
  "      \x7d\n" ++
  "    ]\n" ++
  "  \x7d\n" ++
  "\x7d"

/-! ## Branches of the handler -/

theorem clickHandler_empty (net : Network) (w : World) (h : w.orderIdInput = "") :
    clickHandler net w = (.ok (), setResult validationMarkup (setResult "" w)) := by
  simp [clickHandler, toBoolean, h]

theorem clickHandler_nonempty (net : Network) (w : World) (h : w.orderIdInput ≠ "") :
    clickHandler net w =
      match tryBlock net w.orderIdInput (setResult "" w) with
      | (.ok (), w1) => (.ok (), w1)
      | (.error error, w1) => (.ok (), setResult (requestErrorMarkup error.message) w1) := by
  simp [clickHandler, toBoolean, h]

theorem tryBlock_rejected (net : Network) (orderId : String) (w : World) (e : JSError)
    (h : net (orderUrl orderId) = .rejected e) :
    tryBlock net orderId w = (.error e, recordFetch (orderUrl orderId) w) := by
  simp [tryBlock, h]

theorem tryBlock_json_error (net : Network) (orderId : String) (w : World) (r : Response)
    (e : JSError) (h : net (orderUrl orderId) = .fulfilled r) (hj : r.json = .error e) :
    tryBlock net orderId w = (.error e, recordFetch (orderUrl orderId) w) := by
  simp [tryBlock, h, hj]

theorem tryBlock_not_found (net : Network) (orderId : String) (w : World) (r : Response)
    (data : JSValue) (h : net (orderUrl orderId) = .fulfilled r) (hj : r.json = .ok data)
    (hs : r.status = 404) :
    tryBlock net orderId w
      = (.ok (), setResult (notFoundMarkup orderId) (recordFetch (orderUrl orderId) w)) := by
  simp [tryBlock, h, hj, hs]

theorem tryBlock_success (net : Network) (orderId : String) (w : World) (r : Response)
    (data : JSValue) (h : net (orderUrl orderId) = .fulfilled r) (hj : r.json = .ok data)
    (hok : r.ok = true) :
    tryBlock net orderId w
      = (.ok (), setResult (resultMarkup (jsonStringify data))
          (recordFetch (orderUrl orderId) w)) := by
  have hs : r.status ≠ 404 := by
    intro h404
    simp [Response.ok, h404] at hok
  simp [tryBlock, h, hj, hs, hok]

theorem tryBlock_server_error (net : Network) (orderId : String) (w : World) (r : Response)
    (data : JSValue) (h : net (orderUrl orderId) = .fulfilled r) (hj : r.json = .ok data)
    (hs : r.status ≠ 404) (hok : r.ok = false) :
    tryBlock net orderId w =
      match getMessage data with
      | .error error => (.error error, recordFetch (orderUrl orderId) w)
      | .ok message =>
        match toStringJS (logicalOr message (.string r.statusText)) with
        | .error error => (.error error, recordFetch (orderUrl orderId) w)
        | .ok text =>
          (.ok (), setResult (serverErrorMarkup text) (recordFetch (orderUrl orderId) w)) := by
  simp [tryBlock, h, hj, hs, hok]

theorem tryBlock_message_throws (net : Network) (orderId : String) (w : World) (r : Response)
    (data : JSValue) (e : JSError) (h : net (orderUrl orderId) = .fulfilled r)
    (hj : r.json = .ok data) (hs : r.status ≠ 404) (hok : r.ok = false)
    (hm : getMessage data = .error e) :
    tryBlock net orderId w = (.error e, recordFetch (orderUrl orderId) w) := by
  rw [tryBlock_server_error net orderId w r data h hj hs hok, hm]

theorem tryBlock_conversion_throws (net : Network) (orderId : String) (w : World)
    (r : Response) (data : JSValue) (message : Option JSValue) (e : JSError)
    (h : net (orderUrl orderId) = .fulfilled r) (hj : r.json = .ok data)
    (hs : r.status ≠ 404) (hok : r.ok = false) (hm : getMessage data = .ok message)
    (ht : toStringJS (logicalOr message (.string r.statusText)) = .error e) :
    tryBlock net orderId w = (.error e, recordFetch (orderUrl orderId) w) := by
  rw [tryBlock_server_error net orderId w r data h hj hs hok, hm]
  simp only [ht]

theorem tryBlock_server_message (net : Network) (orderId : String) (w : World)
    (r : Response) (data : JSValue) (message : Option JSValue) (text : String)
    (h : net (orderUrl orderId) = .fulfilled r) (hj : r.json = .ok data)
    (hs : r.status ≠ 404) (hok : r.ok = false) (hm : getMessage data = .ok message)
    (ht : toStringJS (logicalOr message (.string r.statusText)) = .ok text) :
    tryBlock net orderId w
      = (.ok (), setResult (serverErrorMarkup text) (recordFetch (orderUrl orderId) w)) := by
  rw [tryBlock_server_error net orderId w r data h hj hs hok, hm]
  simp only [ht]

/-- What the `try` block leaves behind, whatever path it takes: the request
is recorded, the input field is untouched, and the markup is either the
previous one (on a throw) or one of the three messages of the block. -/
theorem tryBlock_cases (net : Network) (orderId : String) (w : World) :
    (tryBlock net orderId w).2.requests = w.requests ++ [⟨"GET", orderUrl orderId⟩] ∧
    (tryBlock net orderId w).2.orderIdInput = w.orderIdInput ∧
    ((∃ e, (tryBlock net orderId w).1 = .error e ∧ (tryBlock net orderId w).2.result = w.result) ∨
     ((tryBlock net orderId w).1 = .ok () ∧
       ((tryBlock net orderId w).2.result = notFoundMarkup orderId ∨
        (∃ m, (tryBlock net orderId w).2.result = serverErrorMarkup m) ∨
        (∃ data, (tryBlock net orderId w).2.result = resultMarkup (jsonStringify data))))) := by
  cases hn : net (orderUrl orderId) with
  | rejected e => rw [tryBlock_rejected net orderId w e hn]; simp [recordFetch]
  | fulfilled r =>
    cases hj : r.json with
    | error e => rw [tryBlock_json_error net orderId w r e hn hj]; simp [recordFetch]
    | ok data =>
      by_cases hs : r.status = 404
      · rw [tryBlock_not_found net orderId w r data hn hj hs]; simp [recordFetch, setResult]
      · cases hok : r.ok with
        | true =>
          rw [tryBlock_success net orderId w r data hn hj hok]
          exact ⟨rfl, rfl, Or.inr ⟨rfl, Or.inr (Or.inr ⟨data, rfl⟩)⟩⟩
        | false =>
          cases hm : getMessage data with
          | error e =>
            rw [tryBlock_message_throws net orderId w r data e hn hj hs hok hm]
            simp [recordFetch]
          | ok message =>
            cases ht : toStringJS (logicalOr message (.string r.statusText)) with
            | error e =>
              rw [tryBlock_conversion_throws net orderId w r data message e hn hj hs hok hm ht]
              simp [recordFetch]
            | ok text =>
              rw [tryBlock_server_message net orderId w r data message text hn hj hs hok hm ht]
              exact ⟨rfl, rfl, Or.inr ⟨rfl, Or.inr (Or.inl ⟨text, rfl⟩)⟩⟩

/-- The completion and the markup of the `try` block do not depend on the
requests or the input field of the world it starts from, only on its markup. -/
theorem tryBlock_congr (net : Network) (orderId : String) (w w' : World)
    (h : w.result = w'.result) :
    (tryBlock net orderId w).1 = (tryBlock net orderId w').1 ∧
    (tryBlock net orderId w).2.result = (tryBlock net orderId w').2.result := by
  cases hn : net (orderUrl orderId) with
  | rejected e =>
    rw [tryBlock_rejected net orderId w e hn, tryBlock_rejected net orderId w' e hn]
    simp [recordFetch, h]
  | fulfilled r =>
    cases hj : r.json with
    | error e =>
      rw [tryBlock_json_error net orderId w r e hn hj, tryBlock_json_error net orderId w' r e hn hj]
      simp [recordFetch, h]
    | ok data =>
      by_cases hs : r.status = 404
      · rw [tryBlock_not_found net orderId w r data hn hj hs,
          tryBlock_not_found net orderId w' r data hn hj hs]
        simp [recordFetch, setResult]
      · cases hok : r.ok with
        | true =>
          rw [tryBlock_success net orderId w r data hn hj hok,
            tryBlock_success net orderId w' r data hn hj hok]
          simp [recordFetch, setResult]
        | false =>
          cases hm : getMessage data with
          | error e =>
            rw [tryBlock_message_throws net orderId w r data e hn hj hs hok hm,
              tryBlock_message_throws net orderId w' r data e hn hj hs hok hm]
            simp [recordFetch, h]
          | ok message =>
            cases ht : toStringJS (logicalOr message (.string r.statusText)) with
            | error e =>
              rw [tryBlock_conversion_throws net orderId w r data message e hn hj hs hok hm ht,
                tryBlock_conversion_throws net orderId w' r data message e hn hj hs hok hm ht]
              simp [recordFetch, h]
            | ok text =>
              rw [tryBlock_server_message net orderId w r data message text hn hj hs hok hm ht,
                tryBlock_server_message net orderId w' r data message text hn hj hs hok hm ht]
              simp [recordFetch, setResult]

theorem clickHandler_congr (net : Network) (w w' : World)
    (h : w.orderIdInput = w'.orderIdInput) :
    (clickHandler net w).2.result = (clickHandler net w').2.result := by
  by_cases he : w.orderIdInput = ""
  · rw [clickHandler_empty net w he, clickHandler_empty net w' (h ▸ he)]
    simp [setResult]
  · rw [clickHandler_nonempty net w he, clickHandler_nonempty net w' (h ▸ he)]
    have hc := tryBlock_congr net w.orderIdInput (setResult "" w) (setResult "" w') rfl
    rw [← h]
    rcases h1 : tryBlock net w.orderIdInput (setResult "" w) with ⟨c1, v1⟩
    rcases h2 : tryBlock net w.orderIdInput (setResult "" w') with ⟨c2, v2⟩
    rw [h1, h2] at hc
    obtain ⟨hc1, hc2⟩ := hc
    simp only at hc1 hc2
    subst hc1
    cases c1 with
    | error e => simp [setResult]
    | ok u => simpa using hc2

theorem clickHandler_input (net : Network) (w : World) :
    (clickHandler net w).2.orderIdInput = w.orderIdInput := by
  by_cases he : w.orderIdInput = ""
  · rw [clickHandler_empty net w he]; simp [setResult]
  · rw [clickHandler_nonempty net w he]
    have hc := (tryBlock_cases net w.orderIdInput (setResult "" w)).2.1
    rcases h1 : tryBlock net w.orderIdInput (setResult "" w) with ⟨c1, v1⟩
    rw [h1] at hc
    cases c1 with
    | error e => simpa [setResult] using hc
    | ok u => simpa [setResult] using hc

theorem clickHandler_requests (net : Network) (w : World) (he : w.orderIdInput ≠ "") :
    (clickHandler net w).2.requests = w.requests ++ [⟨"GET", orderUrl w.orderIdInput⟩] := by
  rw [clickHandler_nonempty net w he]
  have hc := (tryBlock_cases net w.orderIdInput (setResult "" w)).1
  rcases h1 : tryBlock net w.orderIdInput (setResult "" w) with ⟨c1, v1⟩
  rw [h1] at hc
  cases c1 with
  | error e => simpa [setResult] using hc
  | ok u => simpa [setResult] using hc

theorem append_ne_empty (a b : String) (h : a ≠ "") : a ++ b ≠ "" := by
  intro hab
  apply h
  have := congrArg String.data hab
  simp only [String.data_append] at this
  have h2 : a.data = [] := (List.append_eq_nil.mp this).1
  exact String.ext h2

/-! ## Serialization and the pretty-printed form -/

theorem quoteChar_control : ∀ n : Fin 32,
    (quoteChar (Char.ofNat n.val)).data = specEscape (Char.ofNat n.val) := by
  decide

theorem quoteChar_eq_spec (c : Char) : (quoteChar c).data = specEscape c := by
  by_cases h : c.toNat < 32
  · have := quoteChar_control ⟨c.toNat, h⟩
    simpa [Char.ofNat_toNat] using this
  · have h32 : 32 ≤ c.toNat := Nat.le_of_not_lt h
    by_cases h34 : c.toNat = 34
    · have hc : c = Char.ofNat 34 := by rw [← h34, Char.ofNat_toNat]
      subst hc
      decide
    · by_cases h92 : c.toNat = 92
      · have hc : c = Char.ofNat 92 := by rw [← h92, Char.ofNat_toNat]
        subst hc
        decide
      · have n34 : c ≠ Char.ofNat 34 := by
          intro hc; apply h34; rw [hc]; decide
        have n92 : c ≠ Char.ofNat 92 := by
          intro hc; apply h92; rw [hc]; decide
        have h8 : c.toNat ≠ 8 := by omega
        have h9 : c.toNat ≠ 9 := by omega
        have h10 : c.toNat ≠ 10 := by omega
        have h12 : c.toNat ≠ 12 := by omega
        have h13 : c.toNat ≠ 13 := by omega
        simp [quoteChar, specEscape, h8, h9, h10, h12, h13, h34, h92, h, n34, n92, h32]

theorem foldl_append_data (l : List String) (acc : String) :
    (l.foldl (fun r s => r ++ s) acc).data = acc.data ++ (l.map String.data).flatten := by
  induction l generalizing acc with
  | nil => simp
  | cons a rest ih => simp [ih, String.data_append, List.append_assoc]

theorem join_data (l : List String) : (String.join l).data = (l.map String.data).flatten := by
  simpa [String.join] using foldl_append_data l ""

theorem specQuoted_eq (l : List Char) :
    ((l.map quoteChar).map String.data).flatten ++ [Char.ofNat 34] = specQuoted l := by
  induction l with
  | nil => rfl
  | cons c rest ih =>
    simp only [List.map_cons, List.flatten_cons, List.append_assoc, ih, specQuoted,
      quoteChar_eq_spec]

theorem quoteJSONString_eq_spec (s : String) : quoteJSONString s = specStringLiteral s := by
  apply String.ext
  have h : (String.join (s.data.map quoteChar)).data ++ [Char.ofNat 34] = specQuoted s.data := by
    rw [join_data, specQuoted_eq]
  simp only [quoteJSONString, specStringLiteral, String.data_append, List.append_assoc]
  exact congrArg (List.cons (Char.ofNat 34)) h

theorem intercalate_go_append (x y s : String) (l : List String) :
    String.intercalate.go (x ++ y) s l = x ++ String.intercalate.go y s l := by
  induction l generalizing y with
  | nil => rfl
  | cons c l ih =>
    simp only [String.intercalate.go]
    rw [String.append_assoc, String.append_assoc, ← String.append_assoc y s c, ih]

theorem intercalate_cons_cons (s a b : String) (l : List String) :
    String.intercalate s (a :: b :: l) = a ++ (s ++ String.intercalate s (b :: l)) := by
  simp only [String.intercalate, String.intercalate.go]
  rw [String.append_assoc, intercalate_go_append, intercalate_go_append]

theorem intercalate_singleton (s a : String) : String.intercalate s [a] = a := rfl

theorem spaces_succ (d : Nat) : spaces (2 * d) ++ gap = spaces (2 * (d + 1)) := by
  apply String.ext
  simp only [spaces, gap, String.data_append]
  have : 2 * (d + 1) = 2 * d + 2 := by ring
  rw [this, List.replicate_add]
  rfl

/-- The layout `SerializeJSONArray` and `SerializeJSONObject` give to a
non-empty list of serialized parts: the indentation, then the parts separated
by a comma, a line break and the indentation. -/
theorem layout_cons_cons (indent a b : String) (l : List String) :
    indent ++ String.intercalate (",\n" ++ indent) (a :: b :: l)
      = indent ++ a ++ ",\n" ++ (indent ++ String.intercalate (",\n" ++ indent) (b :: l)) := by
  rw [intercalate_cons_cons]
  simp only [String.append_assoc]

mutual
theorem serialize_eq_spec : (v : JSValue) → (d : Nat) →
    serializeJSONProperty (spaces (2 * d)) v = specPrettyPrint d v
  | .null, d => by simp [serializeJSONProperty, specPrettyPrint]
  | .bool b, d => by simp [serializeJSONProperty, specPrettyPrint]
  | .number n, d => by simp [serializeJSONProperty, specPrettyPrint]
  | .string s, d => by simp [serializeJSONProperty, specPrettyPrint, quoteJSONString_eq_spec]
  | .array [], d => by simp [serializeJSONProperty, specPrettyPrint, serializeElements]
  | .array (e :: rest), d => by
    have ih := serializeElements_eq_spec (e :: rest) (d + 1)
    simp only [serializeJSONProperty, specPrettyPrint, spaces_succ, List.isEmpty_cons]
    simp only [serializeElements] at ih ⊢
    rw [← ih]
    simp only [String.append_assoc, Bool.false_eq_true, if_false]
    rfl
  | .object [], d => by simp [serializeJSONProperty, specPrettyPrint, serializeMembers]
  | .object ((k, v) :: rest), d => by
    have ih := serializeMembers_eq_spec ((k, v) :: rest) (d + 1)
    simp only [serializeJSONProperty, specPrettyPrint, spaces_succ, List.isEmpty_cons]
    simp only [serializeMembers] at ih ⊢
    rw [← ih]
    simp only [String.append_assoc, Bool.false_eq_true, if_false]
    rfl
theorem serializeElements_eq_spec : (es : List JSValue) → (d : Nat) →
    (match serializeElements (spaces (2 * d)) es with
      | [] => ""
      | p :: ps => spaces (2 * d) ++ String.intercalate (",\n" ++ spaces (2 * d)) (p :: ps))
      = specElementLines d es
  | [], d => by simp [serializeElements, specElementLines]
  | [e], d => by
    have h := serialize_eq_spec e d
    simp [serializeElements, specElementLines, intercalate_singleton, h]
  | e :: e' :: rest, d => by
    have h := serialize_eq_spec e d
    have ih := serializeElements_eq_spec (e' :: rest) d
    simp only [serializeElements] at ih ⊢
    simp only [specElementLines, List.isEmpty_cons]
    rw [layout_cons_cons, ih, h]
    simp [specElementLines, String.append_assoc]
theorem serializeMembers_eq_spec : (ps : List (String × JSValue)) → (d : Nat) →
    (match serializeMembers (spaces (2 * d)) ps with
      | [] => ""
      | p :: ps => spaces (2 * d) ++ String.intercalate (",\n" ++ spaces (2 * d)) (p :: ps))
      = specMemberLines d ps
  | [], d => by simp [serializeMembers, specMemberLines]
  | [(k, v)], d => by
    have h := serialize_eq_spec v d
    simp [serializeMembers, specMemberLines, intercalate_singleton, h, String.append_assoc,
      quoteJSONString_eq_spec]
  | (k, v) :: (k', v') :: rest, d => by
    have h := serialize_eq_spec v d
    have ih := serializeMembers_eq_spec ((k', v') :: rest) d
    simp only [serializeMembers] at ih ⊢
    simp only [specMemberLines, List.isEmpty_cons]
    rw [layout_cons_cons, ih, h]
    simp [specMemberLines, String.append_assoc, quoteJSONString_eq_spec]
end

theorem jsonStringify_eq_spec (data : JSValue) : jsonStringify data = specPrettyPrint 0 data :=
  serialize_eq_spec data 0

/-! ## Parsing a body with plain keys -/

theorem createDataProperty_new (key : String) (value : JSValue)
    (properties : List (String × JSValue)) (h : key ∉ properties.map Prod.fst) :
    createDataProperty key value properties = properties ++ [(key, value)] := by
  induction properties with
  | nil => rfl
  | cons p rest ih =>
    obtain ⟨k, v⟩ := p
    simp only [List.map_cons, List.mem_cons, not_or] at h
    have hk : ¬ k = key := fun hk => h.1 hk.symm
    simp [createDataProperty, hk, ih h.2]

theorem distinctKeys_cons (k : String) (rest : List String) :
    distinctKeys (k :: rest) = true ↔ k ∉ rest ∧ distinctKeys rest = true := by
  simp [distinctKeys]

theorem foldl_createDataProperty (members properties : List (String × JSValue))
    (hd : distinctKeys (members.map Prod.fst) = true)
    (hn : ∀ k ∈ members.map Prod.fst, k ∉ properties.map Prod.fst) :
    members.foldl (fun ps m => createDataProperty m.1 m.2 ps) properties
      = properties ++ members := by
  induction members generalizing properties with
  | nil => simp
  | cons m rest ih =>
    rw [List.map_cons, distinctKeys_cons] at hd
    have hm : m.1 ∉ properties.map Prod.fst := hn m.1 (by simp)
    simp only [List.foldl_cons]
    rw [createDataProperty_new m.1 m.2 properties hm, ih _ hd.2]
    · simp
    · intro k hk
      have h1 : k ∉ properties.map Prod.fst := hn k (by simp [hk])
      have h2 : k ≠ m.1 := by
        intro hkm
        subst hkm
        exact hd.1 hk
      intro hmem
      rw [List.map_append, List.mem_append] at hmem
      rcases hmem with hmem | hmem
      · exact h1 hmem
      · simp only [List.map_cons, List.map_nil, List.mem_singleton] at hmem
        exact h2 hmem

theorem createProperties_distinct (members : List (String × JSValue))
    (hd : distinctKeys (members.map Prod.fst) = true) :
    createProperties members = members := by
  have := foldl_createDataProperty members [] hd (by simp)
  simpa [createProperties] using this

theorem ownPropertyOrder_named (properties : List (String × JSValue))
    (h : (properties.map Prod.fst).all (fun k => (arrayIndex? k).isNone) = true) :
    ownPropertyOrder properties = properties := by
  have hi : indexedProperties properties = [] := by
    induction properties with
    | nil => rfl
    | cons p rest ih =>
      simp only [List.map_cons, List.all_cons, Bool.and_eq_true, Option.isNone_iff_eq_none] at h
      simp [indexedProperties, h.1, ih h.2]
  have hf : properties.filter (fun property => (arrayIndex? property.1).isNone) = properties := by
    rw [List.filter_eq_self]
    intro p hp
    simp only [List.all_eq_true, List.mem_map] at h
    exact h p.1 ⟨p, hp, rfl⟩
  simp [ownPropertyOrder, hi, hf]

theorem membersAsWritten_keys (members : List (String × JSONText)) :
    (JSONText.membersAsWritten members).map Prod.fst = members.map Prod.fst := by
  induction members with
  | nil => rfl
  | cons m rest ih =>
    obtain ⟨k, v⟩ := m
    simp [JSONText.membersAsWritten, ih]

mutual
theorem parseJSON_plain : (body : JSONText) → body.hasPlainKeys = true →
    parseJSON body = body.asWritten
  | .null, _ => rfl
  | .bool _, _ => rfl
  | .number _, _ => rfl
  | .string _, _ => rfl
  | .array elements, h => by
    simp only [JSONText.hasPlainKeys] at h
    simp only [parseJSON, JSONText.asWritten, parseElements_plain elements h]
  | .object members, h => by
    simp only [JSONText.hasPlainKeys, Bool.and_eq_true] at h
    obtain ⟨⟨hd, hn⟩, hm⟩ := h
    have ih := parseMembers_plain members hm
    simp only [parseJSON, JSONText.asWritten, ih]
    rw [createProperties_distinct _ (by rw [membersAsWritten_keys]; exact hd),
      ownPropertyOrder_named _ (by rw [membersAsWritten_keys]; exact hn)]
theorem parseElements_plain : (elements : List JSONText) →
    JSONText.elementsHavePlainKeys elements = true →
    parseElements elements = JSONText.elementsAsWritten elements
  | [], _ => rfl
  | e :: rest, h => by
    simp only [JSONText.elementsHavePlainKeys, Bool.and_eq_true] at h
    simp only [parseElements, JSONText.elementsAsWritten, parseJSON_plain e h.1,
      parseElements_plain rest h.2]
theorem parseMembers_plain : (members : List (String × JSONText)) →
    JSONText.membersHavePlainKeys members = true →
    parseMembers members = JSONText.membersAsWritten members
  | [], _ => rfl
  | (k, v) :: rest, h => by
    simp only [JSONText.membersHavePlainKeys, Bool.and_eq_true] at h
    simp only [parseMembers, JSONText.membersAsWritten, parseJSON_plain v h.1,
      parseMembers_plain rest h.2]
end

/-! ## Empty input (C1) -/

/-- C1: when the order-ID input is empty, the handler completes normally,
issues no request, and leaves the validation error in the output region,
whatever the region held before. -/
theorem empty_input_shows_validation_error (net : Network) (w : World)
    (h : w.orderIdInput = "") :
    (clickHandler net w).1 = .ok () ∧
    (clickHandler net w).2.result = validationMarkup ∧
    (clickHandler net w).2.requests = w.requests := by
  rw [clickHandler_empty net w h]
  exact ⟨rfl, rfl, rfl⟩

/-- C1 on a page with an empty input and stale output, over a failing
transport. -/
theorem empty_input_shows_validation_error_witness :
    (pageWith "" "<pre>stale</pre>").orderIdInput = "" ∧
    (clickHandler offline (pageWith "" "<pre>stale</pre>")).1 = .ok () ∧
    (clickHandler offline (pageWith "" "<pre>stale</pre>")).2.result = validationMarkup ∧
    (clickHandler offline (pageWith "" "<pre>stale</pre>")).2.requests
      = (pageWith "" "<pre>stale</pre>").requests :=
  ⟨rfl, empty_input_shows_validation_error offline (pageWith "" "<pre>stale</pre>") rfl⟩

/-! ## Status 404 (C2) -/

/-- C2, as stated, fails: a 404 response whose body is not JSON makes
`response.json()` throw before the status is looked at, and the request-error
message is shown instead of the not-found message. -/
theorem not_found_unparseable_body_counterexample :
    (pageWith "42" "").orderIdInput ≠ "" ∧
    (clickHandler (serverAnswering 404 "Not Found" (.error htmlBodyError))
        (pageWith "42" "")).2.result
      = requestErrorMarkup "Unexpected token < in JSON at position 0" ∧
    (clickHandler (serverAnswering 404 "Not Found" (.error htmlBodyError))
        (pageWith "42" "")).2.result
      ≠ notFoundMarkup "42" := by
  decide

/-- C2, amended: for a non-empty order ID and a 404 response whose body
parses as JSON, whatever the parsed value, the output is the not-found message
with the entered ID inserted unchanged; the response is not ok, so the
not-found branch wins over the server-error branch. -/
theorem not_found_for_parsed_404 (net : Network) (w : World) (r : Response) (data : JSValue)
    (hid : w.orderIdInput ≠ "") (hnet : net (orderUrl w.orderIdInput) = .fulfilled r)
    (hs : r.status = 404) (hj : r.json = .ok data) :
    r.ok = false ∧
    (clickHandler net w).1 = .ok () ∧
    (clickHandler net w).2.result = notFoundMarkup w.orderIdInput := by
  rw [clickHandler_nonempty net w hid,
    tryBlock_not_found net w.orderIdInput (setResult "" w) r data hnet hj hs]
  refine ⟨?_, rfl, rfl⟩
  simp [Response.ok, hs]

/-- C2, amended, on a 404 response whose JSON body carries a `message`
field. -/
theorem not_found_for_parsed_404_witness :
    (serverAnswering 404 "Not Found" (.ok (.object [("message", .string "no such order")]))
        (orderUrl (pageWith "42" "old").orderIdInput)
      = .fulfilled ⟨404, "Not Found", .ok (.object [("message", .string "no such order")])⟩) ∧
    (clickHandler
        (serverAnswering 404 "Not Found" (.ok (.object [("message", .string "no such order")])))
        (pageWith "42" "old")).2.result = notFoundMarkup "42" :=
  ⟨rfl,
    (not_found_for_parsed_404
      (serverAnswering 404 "Not Found" (.ok (.object [("message", .string "no such order")])))
      (pageWith "42" "old")
      ⟨404, "Not Found", .ok (.object [("message", .string "no such order")])⟩
      (.object [("message", .string "no such order")])
      (by decide) rfl rfl rfl).2.2⟩

/-! ## Other failure statuses (C3, C4) -/

/-- C3, as stated, fails for a `message` field holding the empty string: the
field is falsy, so `||` yields the status text. -/
theorem server_error_empty_message_counterexample :
    (clickHandler
        (serverAnswering 500 "Internal Server Error" (.ok (.object [("message", .string "")])))
        (pageWith "42" "")).2.result
      = serverErrorMarkup "Internal Server Error" ∧
    (clickHandler
        (serverAnswering 500 "Internal Server Error" (.ok (.object [("message", .string "")])))
        (pageWith "42" "")).2.result
      ≠ serverErrorMarkup "" := by
  decide

/-- C3, amended: for a non-empty order ID and a response that is not ok and
not 404, if the parsed body is an object whose `message` field is truthy and
converts to a string, the output is the server-error message carrying that
string (the field itself when it is a string). -/
theorem server_error_shows_truthy_message (net : Network) (w : World) (r : Response)
    (properties : List (String × JSValue)) (m : JSValue) (text : String)
    (hid : w.orderIdInput ≠ "") (hnet : net (orderUrl w.orderIdInput) = .fulfilled r)
    (hok : r.ok = false) (hs : r.status ≠ 404) (hj : r.json = .ok (.object properties))
    (hm : properties.lookup "message" = some m) (ht : toBoolean m = true)
    (hstr : toStringJS m = .ok text) :
    (clickHandler net w).1 = .ok () ∧
    (clickHandler net w).2.result = serverErrorMarkup text := by
  have hget : getMessage (.object properties) = .ok (some m) := by simp [getMessage, hm]
  have hor : toStringJS (logicalOr (some m) (.string r.statusText)) = .ok text := by
    simp [logicalOr, ht, hstr]
  rw [clickHandler_nonempty net w hid,
    tryBlock_server_message net w.orderIdInput (setResult "" w) r (.object properties) (some m)
      text hnet hj hs hok hget hor]
  exact ⟨rfl, rfl⟩

/-- C3, amended, on 500 responses whose `message` field holds `"db down"`, the
numbers `1e21` and `1.5`, `true`, and an array: the output carries `db down`,
`1e+21`, `1.5`, `true` and the joined elements. -/
theorem server_error_shows_truthy_message_witness :
    (clickHandler (serverWithMessage (.string "db down")) (pageWith "42" "old")).2.result
      = serverErrorMarkup "db down" ∧
    (clickHandler (serverWithMessage (.number sextillion)) (pageWith "42" "old")).2.result
      = serverErrorMarkup "1e+21" ∧
    (clickHandler (serverWithMessage (.number oneAndHalf)) (pageWith "42" "old")).2.result
      = serverErrorMarkup "1.5" ∧
    (clickHandler (serverWithMessage (.bool true)) (pageWith "42" "old")).2.result
      = serverErrorMarkup "true" ∧
    (clickHandler
        (serverWithMessage
          (.array [.number one, .null, .array [.number two, .string "s"], .object []]))
        (pageWith "42" "old")).2.result
      = serverErrorMarkup "1,,2,s,[object Object]" :=
  ⟨(server_error_shows_truthy_message (serverWithMessage (.string "db down"))
      (pageWith "42" "old")
      ⟨500, "Internal Server Error", .ok (.object [("message", .string "db down")])⟩
      [("message", .string "db down")] (.string "db down") "db down"
      (by decide) rfl (by decide) (by decide) rfl rfl (by decide) rfl).2,
    (server_error_shows_truthy_message (serverWithMessage (.number sextillion))
      (pageWith "42" "old")
      ⟨500, "Internal Server Error", .ok (.object [("message", .number sextillion)])⟩
      [("message", .number sextillion)] (.number sextillion) "1e+21"
      (by decide) rfl (by decide) (by decide) rfl rfl (by decide) rfl).2,
    (server_error_shows_truthy_message (serverWithMessage (.number oneAndHalf))
      (pageWith "42" "old")
      ⟨500, "Internal Server Error", .ok (.object [("message", .number oneAndHalf)])⟩
      [("message", .number oneAndHalf)] (.number oneAndHalf) "1.5"
      (by decide) rfl (by decide) (by decide) rfl rfl (by decide) rfl).2,
    (server_error_shows_truthy_message (serverWithMessage (.bool true))
      (pageWith "42" "old")
      ⟨500, "Internal Server Error", .ok (.object [("message", .bool true)])⟩
      [("message", .bool true)] (.bool true) "true"
      (by decide) rfl (by decide) (by decide) rfl rfl (by decide) rfl).2,
    (server_error_shows_truthy_message
      (serverWithMessage
        (.array [.number one, .null, .array [.number two, .string "s"], .object []]))
      (pageWith "42" "old")
      ⟨500, "Internal Server Error", .ok (.object [("message",
        .array [.number one, .null, .array [.number two, .string "s"], .object []])])⟩
      [("message", .array [.number one, .null, .array [.number two, .string "s"], .object []])]
      (.array [.number one, .null, .array [.number two, .string "s"], .object []])
      "1,,2,s,[object Object]"
      (by decide) rfl (by decide) (by decide) rfl rfl (by decide) rfl).2⟩

/-- C4, as stated, fails for the body `null`: reading `data.message` throws a
`TypeError`, and the request-error message is shown instead of the status
text. -/
theorem server_error_null_body_counterexample :
    (clickHandler (serverAnswering 500 "Internal Server Error" (.ok .null))
        (pageWith "42" "")).2.result
      = requestErrorMarkup (nullPropertyError "message").message ∧
    (clickHandler (serverAnswering 500 "Internal Server Error" (.ok .null))
        (pageWith "42" "")).2.result
      ≠ serverErrorMarkup "Internal Server Error" := by
  decide

/-- C4, amended: for a non-empty order ID and a response that is not ok and
not 404, if the parsed body is not `null` and has no `message` field, the
output is the server-error message carrying the status text. -/
theorem server_error_falls_back_to_status_text (net : Network) (w : World) (r : Response)
    (data : JSValue)
    (hid : w.orderIdInput ≠ "") (hnet : net (orderUrl w.orderIdInput) = .fulfilled r)
    (hok : r.ok = false) (hs : r.status ≠ 404) (hj : r.json = .ok data)
    (hnull : data ≠ .null)
    (hno : ∀ properties, data = .object properties → properties.lookup "message" = none) :
    (clickHandler net w).1 = .ok () ∧
    (clickHandler net w).2.result = serverErrorMarkup r.statusText := by
  have hget : getMessage data = .ok none := by
    cases data with
    | null => exact absurd rfl hnull
    | object properties => simp [getMessage, hno properties rfl]
    | bool b => rfl
    | number n => rfl
    | string s => rfl
    | array elements => rfl
  have hor : toStringJS (logicalOr none (.string r.statusText)) = .ok r.statusText := rfl
  rw [clickHandler_nonempty net w hid,
    tryBlock_server_message net w.orderIdInput (setResult "" w) r data none r.statusText
      hnet hj hs hok hget hor]
  exact ⟨rfl, rfl⟩

/-- C4, amended, on a 503 response whose JSON body has no `message` field. -/
theorem server_error_falls_back_to_status_text_witness :
    (clickHandler
        (serverAnswering 503 "Service Unavailable" (.ok (.object [("code", .number seven)])))
        (pageWith "42" "old")).2.result = serverErrorMarkup "Service Unavailable" :=
  (server_error_falls_back_to_status_text
    (serverAnswering 503 "Service Unavailable" (.ok (.object [("code", .number seven)])))
    (pageWith "42" "old")
    ⟨503, "Service Unavailable", .ok (.object [("code", .number seven)])⟩
    (.object [("code", .number seven)])
    (by decide) rfl (by decide) (by decide) rfl (by intro h; cases h)
    (by intro properties h; cases h; rfl)).2

/-! ## Success (C5) -/

set_option maxRecDepth 100000

/-- C5, as stated, fails: parsing puts a key that is an array index before the
other keys and keeps one member per repeated key, so the body
`{"b":1,"1":2}` is displayed with `"1"` first, not in the order of the
body, and of `{"a":1,"a":2}` only the second member is displayed. -/
theorem body_key_order_not_preserved_counterexample :
    (clickHandler (serverWithBody indexKeyBody) (pageWith "42" "")).2.result
      = "<pre>\x7b\n  \"1\": 2,\n  \"b\": 1\n\x7d</pre>" ∧
    "<pre>" ++ specPrettyPrint 0 indexKeyBody.asWritten ++ "</pre>"
      = "<pre>\x7b\n  \"b\": 1,\n  \"1\": 2\n\x7d</pre>" ∧
    (clickHandler (serverWithBody indexKeyBody) (pageWith "42" "")).2.result
      ≠ "<pre>" ++ specPrettyPrint 0 indexKeyBody.asWritten ++ "</pre>" ∧
    (clickHandler (serverWithBody repeatedKeyBody) (pageWith "42" "")).2.result
      = "<pre>\x7b\n  \"a\": 2\n\x7d</pre>" := by
  decide

/-- C5, amended: for a non-empty order ID and an ok response with a JSON
body, the handler completes normally and the output is a `pre` block holding
the pretty-printed form of the parsed value: two spaces of indentation per
nesting level, strings as JSON string literals, finite numbers as their
shortest decimal numerals and other numbers as `null`, and the members of an
object in the order the parsed object enumerates its keys.  When no object of
the body repeats a key or has an array-index key, that is the body itself,
every member once and in the order written. -/
theorem success_shows_parsed_body_pretty_printed (net : Network) (w : World) (r : Response)
    (body : JSONText)
    (hid : w.orderIdInput ≠ "") (hnet : net (orderUrl w.orderIdInput) = .fulfilled r)
    (hok : r.ok = true) (hj : r.json = .ok (parseJSON body)) :
    (clickHandler net w).1 = .ok () ∧
    (clickHandler net w).2.result = "<pre>" ++ specPrettyPrint 0 (parseJSON body) ++ "</pre>" ∧
    (body.hasPlainKeys = true →
      (clickHandler net w).2.result
        = "<pre>" ++ specPrettyPrint 0 body.asWritten ++ "</pre>") := by
  have hres : (clickHandler net w).2.result
      = "<pre>" ++ specPrettyPrint 0 (parseJSON body) ++ "</pre>" := by
    rw [clickHandler_nonempty net w hid,
      tryBlock_success net w.orderIdInput (setResult "" w) r (parseJSON body) hnet hj hok,
      jsonStringify_eq_spec]
    rfl
  refine ⟨?_, hres, ?_⟩
  · rw [clickHandler_nonempty net w hid,
      tryBlock_success net w.orderIdInput (setResult "" w) r (parseJSON body) hnet hj hok]
  · intro hplain
    rw [hres, parseJSON_plain body hplain]

/-- C5, amended, on the 200 response carrying the shipped order, whose keys
are plain (the output is the object on four lines, members in the order of the
body), and on a body with every kind of value. -/
theorem success_shows_parsed_body_pretty_printed_witness :
    shippedBody.hasPlainKeys = true ∧
    (clickHandler (serverWithBody shippedBody) (pageWith "42" "old")).2.result
      = "<pre>\x7b\n  \"id\": \"42\",\n  \"status\": \"shipped\"\n\x7d</pre>" ∧
    (clickHandler (serverWithBody mixedBody) (pageWith "42" "old")).2.result
      = "<pre>" ++ mixedBodyDisplayed ++ "</pre>" :=
  ⟨by decide,
    ((success_shows_parsed_body_pretty_printed (serverWithBody shippedBody)
      (pageWith "42" "old") ⟨200, "OK", .ok (parseJSON shippedBody)⟩ shippedBody
      (by decide) rfl (by decide) rfl).2.2 (by decide)).trans (by decide),
    (success_shows_parsed_body_pretty_printed (serverWithBody mixedBody)
      (pageWith "42" "old") ⟨200, "OK", .ok (parseJSON mixedBody)⟩ mixedBody
      (by decide) rfl (by decide) rfl).2.1.trans (by decide)⟩

/-! ## Exceptions (C6, C7) -/

/-- C6: for a non-empty order ID, when `fetch` is rejected with an error, or
`response.json()` is, the handler completes normally and the output is the
request-error message carrying that error's `message`. -/
theorem exception_shows_request_error (net : Network) (w : World) (e : JSError)
    (hid : w.orderIdInput ≠ "")
    (h : net (orderUrl w.orderIdInput) = .rejected e ∨
      ∃ r, net (orderUrl w.orderIdInput) = .fulfilled r ∧ r.json = .error e) :
    (clickHandler net w).1 = .ok () ∧
    (clickHandler net w).2.result = requestErrorMarkup e.message := by
  rw [clickHandler_nonempty net w hid]
  rcases h with h | ⟨r, h, hj⟩
  · rw [tryBlock_rejected net w.orderIdInput (setResult "" w) e h]
    exact ⟨rfl, rfl⟩
  · rw [tryBlock_json_error net w.orderIdInput (setResult "" w) r e h hj]
    exact ⟨rfl, rfl⟩

/-- C6 on a transport that rejects every request. -/
theorem exception_shows_request_error_witness :
    (pageWith "42" "old").orderIdInput ≠ "" ∧
    (clickHandler offline (pageWith "42" "old")).1 = .ok () ∧
    (clickHandler offline (pageWith "42" "old")).2.result
      = requestErrorMarkup "Failed to fetch" :=
  ⟨by decide,
    exception_shows_request_error offline (pageWith "42" "old")
      ⟨"TypeError", "Failed to fetch"⟩ (by decide) (Or.inl rfl)⟩

/-- C7: for every input value and every behaviour of the network, the handler
completes normally (no exception leaves it) and the output region holds
non-empty markup that is the validation error, the not-found message for the
entered ID, a server-error message, a pretty-printed result, or a
request-error message. -/
theorem handler_never_throws (net : Network) (w : World) :
    (clickHandler net w).1 = .ok () ∧
    (clickHandler net w).2.result ≠ "" ∧
    ((clickHandler net w).2.result = validationMarkup ∨
     (clickHandler net w).2.result = notFoundMarkup w.orderIdInput ∨
     (∃ message, (clickHandler net w).2.result = serverErrorMarkup message) ∨
     (∃ data, (clickHandler net w).2.result = resultMarkup (jsonStringify data)) ∨
     (∃ error : JSError, (clickHandler net w).2.result = requestErrorMarkup error.message)) := by
  have key : (clickHandler net w).1 = .ok () ∧
      ((clickHandler net w).2.result = validationMarkup ∨
       (clickHandler net w).2.result = notFoundMarkup w.orderIdInput ∨
       (∃ message, (clickHandler net w).2.result = serverErrorMarkup message) ∨
       (∃ data, (clickHandler net w).2.result = resultMarkup (jsonStringify data)) ∨
       (∃ error : JSError,
         (clickHandler net w).2.result = requestErrorMarkup error.message)) := by
    by_cases he : w.orderIdInput = ""
    · rw [clickHandler_empty net w he]
      exact ⟨rfl, Or.inl rfl⟩
    · rw [clickHandler_nonempty net w he]
      have hc := (tryBlock_cases net w.orderIdInput (setResult "" w)).2.2
      rcases h1 : tryBlock net w.orderIdInput (setResult "" w) with ⟨c1, v1⟩
      rw [h1] at hc
      rcases hc with ⟨e, hc1, -⟩ | ⟨hc1, hc2⟩
      · simp only at hc1
        subst hc1
        exact ⟨rfl, Or.inr (Or.inr (Or.inr (Or.inr ⟨e, rfl⟩)))⟩
      · simp only at hc1 hc2
        subst hc1
        refine ⟨rfl, Or.inr ?_⟩
        rcases hc2 with h | h | h
        · exact Or.inl h
        · exact Or.inr (Or.inl h)
        · exact Or.inr (Or.inr (Or.inl h))
  refine ⟨key.1, ?_, key.2⟩
  rcases key.2 with h | h | ⟨m, h⟩ | ⟨d, h⟩ | ⟨e, h⟩ <;> rw [h]
  · decide
  · exact append_ne_empty _ _ (append_ne_empty _ _ (by decide))
  · exact append_ne_empty _ _ (append_ne_empty _ _ (by decide))
  · exact append_ne_empty _ _ (append_ne_empty _ _ (by decide))
  · exact append_ne_empty _ _ (append_ne_empty _ _ (by decide))

/-! ## Requests and frame (C8, C9) -/

/-- C8, as stated, fails for the empty input: the handler returns before the
`fetch`, so the activation issues no request at all. -/
theorem empty_input_issues_no_request_counterexample :
    (clickHandler offline (pageWith "" "")).2.requests = [] ∧
    (clickHandler offline (pageWith "" "")).2.requests.length ≠ 1 := by
  decide

/-- C8, amended: an activation with a non-empty input issues exactly one
request, an activation with an empty input issues none, and in both cases
the input field is left as it was: the output region is the only part of the
page that changes. -/
theorem one_request_unless_input_empty (net : Network) (w : World) :
    (clickHandler net w).2.orderIdInput = w.orderIdInput ∧
    (clickHandler net w).2.requests
      = if w.orderIdInput = "" then w.requests
        else w.requests ++ [⟨"GET", orderUrl w.orderIdInput⟩] := by
  refine ⟨clickHandler_input net w, ?_⟩
  by_cases he : w.orderIdInput = ""
  · rw [clickHandler_empty net w he, if_pos he]
    rfl
  · rw [clickHandler_requests net w he, if_neg he]

/-- C9: for a non-empty order ID, the one request the handler adds is a `GET`
whose URL is `/order/` followed by the input value exactly as entered. -/
theorem request_is_get_of_raw_order_id (net : Network) (w : World)
    (hid : w.orderIdInput ≠ "") :
    (clickHandler net w).2.requests
      = w.requests ++ [⟨"GET", "/order/" ++ w.orderIdInput⟩] :=
  clickHandler_requests net w hid

/-- C9 on an order ID with spaces and URL delimiters: it reaches `fetch`
unchanged. -/
theorem request_is_get_of_raw_order_id_witness :
    (pageWith " a/b?c=d&e#f " "").orderIdInput ≠ "" ∧
    (clickHandler offline (pageWith " a/b?c=d&e#f " "")).2.requests
      = [⟨"GET", "/order/ a/b?c=d&e#f "⟩] :=
  ⟨by decide, request_is_get_of_raw_order_id offline (pageWith " a/b?c=d&e#f " "") (by decide)⟩

/-! ## Idempotence (C10) -/

/-- C10: the final output depends only on the network and the entered order
ID, not on what the output region held or which requests were issued before;
hence a second activation, started from the world the first one left, ends
with the same output as the first. -/
theorem output_independent_of_previous_content (net : Network) (orderId : String)
    (previous previous' : String) (log log' : List Request) :
    (clickHandler net ⟨orderId, previous, log⟩).2.result
      = (clickHandler net ⟨orderId, previous', log'⟩).2.result ∧
    (clickHandler net (clickHandler net ⟨orderId, previous, log⟩).2).2.result
      = (clickHandler net ⟨orderId, previous, log⟩).2.result := by
  refine ⟨clickHandler_congr net _ _ rfl, clickHandler_congr net _ _ ?_⟩
  exact clickHandler_input net ⟨orderId, previous, log⟩

end OrderLookup
